import Mathlib

/-!
Verification of the CinemaBot showtime engine (`main.go`, in-memory variant).

The repository ships an IRC bot that tracks scheduled movie "showtimes".
The README documents the in-memory variant (a `map[string]Showtime` guarded
by a mutex); its functions are embedded here as pure Lean functions:

* `parseArgs` — the shell-like command tokenizer (rune-by-rune state machine);
* `formatTimeUntil` / `formatTimeSince` — human-readable duration phrases;
* `storeCreate` / `storeDelete` / `getAllShowtimes` — the store operations;
* `nextMovieReply` — the "what is playing" query over the whole store;
* `createShowtimeFields` — creation from discrete date fields with calendar
  validation;
* `dispatchShowtime` — routing on the tokens of a `;showtime` command.

Modelling conventions:
* instants (`time.Time` values, always UTC in the program) are `Int`
  nanoseconds, so `t1.After(t2)` is `t2 < t1` and `t1.Sub(t2)` is `t1 - t2`
  (a `time.Duration` is an integer count of nanoseconds);
* the Go `map[string]Showtime` has no specified iteration order, so every
  function that ranges over the map takes the iteration order as an explicit
  `List Showtime` argument;
* Go strings are iterated rune by rune; tokens are built with `String.push`.
-/

/-- The `Showtime` record (`main.go`): id, title, UTC instant, creator nick. -/
structure Showtime where
  id : String
  title : String
  dateTime : Int
  createdBy : String
deriving DecidableEq, Repr

/-- The tokenizer's four pieces of state (`parseArgs` in `main.go`):
the tokens emitted so far, the current-token buffer, the "inside quotes"
flag and the "previous char was a backslash" flag. -/
structure ParseState where
  args : List String
  current : String
  inQuotes : Bool
  escaped : Bool
deriving DecidableEq, Repr

/-- One step of the `parseArgs` rune loop, a direct transcription of the
`switch char` statement in `main.go`. -/
def parseStep (st : ParseState) (c : Char) : ParseState :=
  if c = '\\' then
    if st.escaped then { st with current := st.current.push c, escaped := false }
    else { st with escaped := true }
  else if c = '"' then
    if st.escaped then { st with current := st.current.push c, escaped := false }
    else if st.inQuotes then
      -- end of quoted section: always flush the buffer, even if empty
      { st with args := st.args ++ [st.current], current := "", inQuotes := false }
    else { st with inQuotes := true }
  else if c = ' ' ∨ c = '\t' then
    if st.escaped then { st with current := st.current.push c, escaped := false }
    else if st.inQuotes then { st with current := st.current.push c }
    else if st.current.length > 0 then
      { st with args := st.args ++ [st.current], current := "" }
    else st
  else if c = 't' then
    if st.escaped then { st with current := st.current.push '\t', escaped := false }
    else { st with current := st.current.push c }
  else if c = 'n' then
    if st.escaped then { st with current := st.current.push '\n', escaped := false }
    else { st with current := st.current.push c }
  else if c = 'r' then
    if st.escaped then { st with current := st.current.push '\r', escaped := false }
    else { st with current := st.current.push c }
  else
    if st.escaped then
      -- unrecognized escape: the backslash is kept, then the char itself
      { st with current := (st.current.push '\\').push c, escaped := false }
    else { st with current := st.current.push c }

/-- `parseArgs` (`main.go`): fold the rune loop over the message and flush a
non-empty trailing buffer. -/
def parseArgs (message : String) : List String :=
  let st := message.data.foldl parseStep ⟨[], "", false, false⟩
  if st.current.length > 0 then st.args ++ [st.current] else st.args

/-- `duration.Round(time.Second)` in seconds: round a nanosecond count to the
nearest second, ties away from zero (Go `Duration.Round` semantics), then
`int(….Seconds())`. -/
def roundSeconds (ns : Int) : Int :=
  let q : Nat := (ns.natAbs + 500000000) / 1000000000
  if ns < 0 then -(q : Int) else (q : Int)

/-- The singular/plural hours clause of the formatter. -/
def hoursClause (n : Nat) : String :=
  if n = 1 then "1 hour" else toString n ++ " hours"

/-- The singular/plural minutes clause of the formatter. -/
def minutesClause (n : Nat) : String :=
  if n = 1 then "1 minute" else toString n ++ " minutes"

/-- The singular/plural seconds clause of the formatter. -/
def secondsClause (n : Nat) : String :=
  if n = 1 then "1 second" else toString n ++ " seconds"

/-- The `parts` slice built by `formatTimeUntil`/`formatTimeSince` for a
total of `t` seconds (only reached when `t ≥ 60`): an hours clause if
hours > 0, a minutes clause if minutes > 0, and a seconds clause only if
seconds > 0 and hours = 0. -/
def durationParts (t : Nat) : List String :=
  let hours := t / 3600
  let minutes := t % 3600 / 60
  let seconds := t % 60
  (if hours > 0 then [hoursClause hours] else []) ++
    (if minutes > 0 then [minutesClause minutes] else []) ++
      (if seconds > 0 ∧ hours = 0 then [secondsClause seconds] else [])

/-- `formatTimeUntil` (`main.go`): duration in nanoseconds to a phrase
prefixed with `"In "`. -/
def formatTimeUntil (ns : Int) : String :=
  let totalSeconds := roundSeconds ns
  if totalSeconds ≤ 0 then "Now"
  else
    let t := totalSeconds.toNat
    if t < 60 then
      if t = 1 then "In 1 second" else "In " ++ toString t ++ " seconds"
    else "In " ++ String.intercalate ", " (durationParts t)

/-- `formatTimeSince` (`main.go`): duration in nanoseconds to a bare phrase. -/
def formatTimeSince (ns : Int) : String :=
  let totalSeconds := roundSeconds ns
  if totalSeconds ≤ 0 then "Just started"
  else
    let t := totalSeconds.toNat
    if t < 60 then
      if t = 1 then "1 second" else toString t ++ " seconds"
    else String.intercalate ", " (durationParts t)

/-- The store invariant maintained by the program: the map keys are the ids,
so no two stored Showtimes share an id. -/
def uniqueIds (store : List Showtime) : Prop :=
  store.Pairwise fun a b => a.id ≠ b.id

/-- Store-level create (`createShowtime` in `main.go`, duplicate check at the
map plus `bot.showtimes[id] = showtime`): with the instant already resolved,
fail without mutation when the id is present, insert otherwise.  The success
reply renders the instant abstractly; no claim depends on its text. -/
def storeCreate (store : List Showtime) (id title : String) (dt : Int)
    (nick : String) : List Showtime × String :=
  if store.any fun s => s.id == id then
    (store, "Showtime with ID '" ++ id ++ "' already exists.")
  else
    (store ++ [⟨id, title, dt, nick⟩],
      "Created showtime: [" ++ id ++ "] " ++ title ++ " - " ++ toString dt)

/-- Store-level delete (`deleteShowtime` in `main.go`, after the id has been
extracted from `-delete="…"`): not-found, not-creator, or removal. -/
def storeDelete (store : List Showtime) (id nick : String) :
    List Showtime × String :=
  match store.find? (fun s => s.id == id) with
  | none => (store, "Showtime with ID '" ++ id ++ "' not found.")
  | some s =>
    if s.createdBy ≠ nick then
      (store, "You can only delete showtimes you created.")
    else
      (store.filter fun t => t.id ≠ id, "Deleted showtime: " ++ id)

/-- The comparator of `listShowtimes` (`main.go`): `sort.Slice` with
`DateTime.Before`, i.e. ordering solely by the instant. -/
def byDateTime (a b : Showtime) : Prop := a.dateTime ≤ b.dateTime

instance : DecidableRel byDateTime := fun a b =>
  inferInstanceAs (Decidable (a.dateTime ≤ b.dateTime))

instance : IsTotal Showtime byDateTime := ⟨fun a b => le_total a.dateTime b.dateTime⟩

instance : IsTrans Showtime byDateTime := ⟨fun _ _ _ h₁ h₂ => le_trans h₁ h₂⟩

/-- Strict version of the `listShowtimes` comparator, used to reason about
stores whose instants are pairwise distinct. -/
def byDateTimeStrict (a b : Showtime) : Prop := a.dateTime < b.dateTime

instance : IsAntisymm Showtime byDateTimeStrict :=
  ⟨fun _ _ h₁ h₂ => absurd (lt_trans h₁ h₂) (lt_irrefl _)⟩

/-- `listShowtimes`/`getAllShowtimes` sorting step (`main.go`): copy the map
values in iteration order, then sort by `DateTime` only.  The map iteration
order is the explicit argument; the sort is modelled by insertion sort, which
(like Go's two-element comparisons) keeps equal-key elements in input order. -/
def getAllShowtimes (iterationOrder : List Showtime) : List Showtime :=
  List.insertionSort byDateTime iterationOrder

/-- The loop state of `handleNextMovieCommand` (`main.go`): whether the
`nextShowtime` / `currentShowtime` pointers have been assigned, and the two
tracked durations (nanoseconds). -/
structure ScanState where
  hasNext : Bool
  shortestDuration : Int
  hasCurrent : Bool
  shortestCurrentDuration : Int
deriving DecidableEq, Repr

/-- One iteration of the `range bot.showtimes` loop in
`handleNextMovieCommand`: classify the showtime as future (`DateTime.After
now`) or past, and keep the strictly smaller duration. -/
def scanStep (now : Int) (st : ScanState) (s : Showtime) : ScanState :=
  if now < s.dateTime then
    let duration := s.dateTime - now
    if st.hasNext = false ∨ duration < st.shortestDuration then
      { st with hasNext := true, shortestDuration := duration }
    else st
  else
    let duration := now - s.dateTime
    if st.hasCurrent = false ∨ duration < st.shortestCurrentDuration then
      { st with hasCurrent := true, shortestCurrentDuration := duration }
    else st

/-- `handleNextMovieCommand` (`main.go`, in-memory variant), compiled with the
Go 1.21 toolchain pinned by the Dockerfile.  Under Go ≤ 1.21 the `range`
clause declares ONE loop variable `showtime` reused across iterations;
`nextShowtime = &showtime` and `currentShowtime = &showtime` store the address
of that single variable, so after the loop both pointers dereference to the
LAST element of the iteration order, whatever was tracked.  The tracked
durations are plain values and are kept correctly. -/
def nextMovieReply (now : Int) (iterationOrder : List Showtime) : String :=
  let st := iterationOrder.foldl (scanStep now) ⟨false, 0, false, 0⟩
  match iterationOrder.getLast? with
  | none => "No movies scheduled!"
  | some loopVarFinal =>
    if st.hasCurrent then
      formatTimeSince st.shortestCurrentDuration ++ " into " ++ loopVarFinal.title
    else if st.hasNext then
      formatTimeUntil st.shortestDuration ++ ", " ++ loopVarFinal.title ++ " is playing!"
    else "No movies scheduled!"

/-- Gregorian leap-year rule, as implemented by Go's `time` package. -/
def isLeapYear (y : Nat) : Bool := (y % 4 = 0 ∧ y % 100 ≠ 0) ∨ y % 400 = 0

/-- Length of month `m` of year `y` (Go `time` package calendar). -/
def daysInMonth (y m : Nat) : Nat :=
  if m = 2 then (if isLeapYear y then 29 else 28)
  else if m = 4 ∨ m = 6 ∨ m = 9 ∨ m = 11 then 30
  else 31

/-- Normalization performed by Go's `time.Date` on a day-of-month that
overflows its month, restricted to the inputs that reach it in
`createShowtime` (month already validated to 1–12, day to 1–31): a day past
the end of the month rolls into the following month.  With day ≤ 31 a single
roll suffices (the overflow is at most 3 days). -/
def normalizeDate (y m d : Nat) : Nat × Nat × Nat :=
  if d ≤ daysInMonth y m then (y, m, d)
  else if m = 12 then (y + 1, 1, d - daysInMonth y m)
  else (y, m + 1, d - daysInMonth y m)

/-- Order-preserving integer encoding of the validated UTC instant
(`time.Date(year, month, day, hours, minutes, seconds, 0, time.UTC)`),
standing in for the epoch value of the `time.Time`. -/
def encodeInstant (y mo d h mi s : Nat) : Int :=
  ((((((y * 12 + mo) * 31 + d) * 24 + h) * 60 + mi) * 60 + s : Nat) : Int)

/-- Two-digit zero padding, as in Go's `"01"`, `"02"`, `"15"`, `"04"`, `"05"`
format verbs. -/
def pad2 (n : Nat) : String := if n < 10 then "0" ++ toString n else toString n

/-- The `"2006-01-02 15:04:05 MST"` rendering of the created instant (the
location is always UTC). -/
def formatDateTimeStr (y mo d h mi s : Nat) : String :=
  toString y ++ "-" ++ pad2 mo ++ "-" ++ pad2 d ++ " " ++
    pad2 h ++ ":" ++ pad2 mi ++ ":" ++ pad2 s ++ " UTC"

/-- `createShowtime` (`main.go`, in-memory variant) on the discrete-field
path, after argument parsing has bound the numeric fields (each already
range-checked): require id/title, reject a duplicate id, substitute the
current UTC date for absent (zero) year/month/day, reconstruct the date and
reject it if `time.Date` normalized it away, else insert. -/
def createShowtimeFields (store : List Showtime) (id title : String)
    (hours minutes seconds month day year : Nat) (nick : String)
    (nowYear nowMonth nowDay : Nat) : List Showtime × String :=
  if id = "" ∨ title = "" then
    (store, "Required: -id=\"id\" -title=\"title\"")
  else if store.any fun s => s.id == id then
    (store, "Showtime with ID '" ++ id ++ "' already exists.")
  else
    let year := if year = 0 then nowYear else year
    let month := if month = 0 then nowMonth else month
    let day := if day = 0 then nowDay else day
    if normalizeDate year month day ≠ (year, month, day) then
      (store, "Invalid date (check month/day combination and leap year).")
    else
      (store ++ [⟨id, title, encodeInstant year month day hours minutes seconds, nick⟩],
        "Created showtime: [" ++ id ++ "] " ++ title ++ " - " ++
          formatDateTimeStr year month day hours minutes seconds)

/-- The four branches of the `switch` in `handleShowtimeCommand`. -/
inductive ShowtimeAction where
  | list
  | delete
  | create
  | usage
deriving DecidableEq, Repr

/-- `strings.HasPrefix(s, pre)`, stated over the character sequences. -/
def strHasPre (s pre : String) : Bool := pre.data.isPrefixOf s.data

/-- `handleShowtimeCommand` routing (`main.go`): usage when fewer than two
tokens; otherwise `-list` as second token wins, then any token after the
first beginning with `-delete`, then `-create` as second token, else usage. -/
def dispatchShowtime (args : List String) : ShowtimeAction :=
  if args.length < 2 then .usage
  else
    let hasDelete := (args.drop 1).any fun arg => strHasPre arg "-delete"
    if args.getD 1 "" = "-list" then .list
    else if hasDelete then .delete
    else if args.getD 1 "" = "-create" then .create
    else .usage

/-- In a store with pairwise-distinct ids, looking up a stored Showtime's id
finds exactly that Showtime (the `map[string]Showtime` access). -/
theorem find_mem_of_uniqueIds {store : List Showtime} {s : Showtime}
    (hu : uniqueIds store) (hs : s ∈ store) :
    store.find? (fun t => t.id == s.id) = some s := by
  induction store with
  | nil => cases hs
  | cons h tl ih =>
    obtain ⟨hne, hu'⟩ := List.pairwise_cons.mp hu
    rcases List.mem_cons.mp hs with rfl | hmem
    · exact List.find?_cons_of_pos _ (by simp)
    · have hhs : (h.id == s.id) = false := by
        simp only [beq_eq_false_iff_ne, ne_eq]
        exact hne s hmem
      rw [List.find?_cons_of_neg _ (by simp [hhs])]
      exact ih hu' hmem

/-- **C1.** For every id, title, datetime and creator, if a Showtime with
that id is already stored, `storeCreate` fails with the reply
`Showtime with ID 'ID' already exists.` and the stored collection is
returned unchanged: no entry is added, modified, or removed. -/
theorem c1_duplicate_create_no_mutation
    (store : List Showtime) (id title : String) (dt : Int) (nick : String)
    (hdup : ∃ s ∈ store, s.id = id) :
    storeCreate store id title dt nick =
      (store, "Showtime with ID '" ++ id ++ "' already exists.") := by
  obtain ⟨s, hs, hid⟩ := hdup
  have hany : (store.any fun t => t.id == id) = true :=
    List.any_eq_true.mpr ⟨s, hs, by simp [hid]⟩
  simp [storeCreate, hany]

/-- Witness for C1 at a concrete store. -/
theorem c1_duplicate_create_no_mutation_witness :
    storeCreate [⟨"m1", "Dune", 5, "alice"⟩] "m1" "Tenet" 9 "bob" =
      ([⟨"m1", "Dune", 5, "alice"⟩], "Showtime with ID 'm1' already exists.") :=
  c1_duplicate_create_no_mutation _ _ _ _ _
    ⟨⟨"m1", "Dune", 5, "alice"⟩, by decide, rfl⟩

/-- **C2.** For every stored Showtime `s` (in a store with unique ids) and
every requester identity different from `s.createdBy`, deleting `s.id` as
that requester fails with the reply `You can only delete showtimes you
created.`, the store is unchanged, and a subsequent listing still contains
`s`. -/
theorem c2_delete_by_noncreator_fails
    (store : List Showtime) (s : Showtime) (nick : String)
    (hu : uniqueIds store) (hs : s ∈ store) (hnick : nick ≠ s.createdBy) :
    storeDelete store s.id nick =
        (store, "You can only delete showtimes you created.") ∧
      s ∈ getAllShowtimes store := by
  refine ⟨?_, ?_⟩
  · rw [storeDelete, find_mem_of_uniqueIds hu hs]
    simp [Ne.symm hnick]
  · exact (List.perm_insertionSort byDateTime store).mem_iff.mpr hs

/-- Witness for C2 at a concrete store and requester. -/
theorem c2_delete_by_noncreator_fails_witness :
    storeDelete [⟨"a", "Alien", 5, "alice"⟩] "a" "bob" =
        ([⟨"a", "Alien", 5, "alice"⟩], "You can only delete showtimes you created.") ∧
      (⟨"a", "Alien", 5, "alice"⟩ : Showtime) ∈
        getAllShowtimes [⟨"a", "Alien", 5, "alice"⟩] :=
  c2_delete_by_noncreator_fails _ ⟨"a", "Alien", 5, "alice"⟩ "bob"
    (by simp [uniqueIds]) (by decide) (by decide)

/-- **C3 (counterexample).** The listing sorts only by `datetime` over the
map's (unspecified, randomized) iteration order, so with a datetime tie the
same stored data — here the two-element store holding ids `a` and `b`, both
at instant 5 — yields different sequences for different iteration orders:
ties are neither broken by id nor stable across repeated calls. -/
theorem c3_tie_order_not_deterministic :
    getAllShowtimes [⟨"a", "A", 5, "n"⟩, ⟨"b", "B", 5, "n"⟩] =
        [⟨"a", "A", 5, "n"⟩, ⟨"b", "B", 5, "n"⟩] ∧
      getAllShowtimes [⟨"b", "B", 5, "n"⟩, ⟨"a", "A", 5, "n"⟩] =
        [⟨"b", "B", 5, "n"⟩, ⟨"a", "A", 5, "n"⟩] ∧
      getAllShowtimes [⟨"a", "A", 5, "n"⟩, ⟨"b", "B", 5, "n"⟩] ≠
        getAllShowtimes [⟨"b", "B", 5, "n"⟩, ⟨"a", "A", 5, "n"⟩] := by
  refine ⟨by decide, by decide, by decide⟩

/-- **C3 (amended).** For every iteration order, the listing is sorted
ascending by `datetime` and is a permutation of the store; when no two stored
Showtimes share a `datetime`, the output is moreover independent of the
iteration order, so repeated calls with unchanged data return the identical
sequence.  (With ties, the order depends on the map iteration order.) -/
theorem c3_listAll_sorted_permutation (iter : List Showtime) :
    (getAllShowtimes iter).Sorted byDateTime ∧
      List.Perm (getAllShowtimes iter) iter ∧
      ((iter.Pairwise fun a b => a.dateTime ≠ b.dateTime) →
        ∀ iter₂, List.Perm iter₂ iter → getAllShowtimes iter₂ = getAllShowtimes iter) := by
  refine ⟨List.sorted_insertionSort byDateTime iter,
    List.perm_insertionSort byDateTime iter, ?_⟩
  intro hdist iter₂ hperm
  have hsymm : ∀ {a b : Showtime}, a.dateTime ≠ b.dateTime → b.dateTime ≠ a.dateTime :=
    fun h => h.symm
  have hdist₂ : iter₂.Pairwise fun a b => a.dateTime ≠ b.dateTime :=
    hdist.perm hperm.symm hsymm
  have hd₁ : (getAllShowtimes iter).Pairwise fun a b => a.dateTime ≠ b.dateTime :=
    hdist.perm (List.perm_insertionSort byDateTime iter).symm hsymm
  have hd₂ : (getAllShowtimes iter₂).Pairwise fun a b => a.dateTime ≠ b.dateTime :=
    hdist₂.perm (List.perm_insertionSort byDateTime iter₂).symm hsymm
  have hs₁ : (getAllShowtimes iter).Sorted byDateTimeStrict :=
    (List.Pairwise.and (List.sorted_insertionSort byDateTime iter) hd₁).imp
      fun h => lt_of_le_of_ne h.1 h.2
  have hs₂ : (getAllShowtimes iter₂).Sorted byDateTimeStrict :=
    (List.Pairwise.and (List.sorted_insertionSort byDateTime iter₂) hd₂).imp
      fun h => lt_of_le_of_ne h.1 h.2
  have hp : List.Perm (getAllShowtimes iter₂) (getAllShowtimes iter) :=
    ((List.perm_insertionSort byDateTime iter₂).trans hperm).trans
      (List.perm_insertionSort byDateTime iter).symm
  exact List.eq_of_perm_of_sorted hp hs₂ hs₁

/-- Witness for C3 (amended) at a concrete two-element store with distinct
datetimes and a swapped iteration order. -/
theorem c3_listAll_sorted_permutation_witness :
    getAllShowtimes [⟨"b", "B", 7, "n"⟩, ⟨"a", "A", 5, "n"⟩] =
      getAllShowtimes [⟨"a", "A", 5, "n"⟩, ⟨"b", "B", 7, "n"⟩] :=
  (c3_listAll_sorted_permutation [⟨"a", "A", 5, "n"⟩, ⟨"b", "B", 7, "n"⟩]).2.2
    (by decide) [⟨"b", "B", 7, "n"⟩, ⟨"a", "A", 5, "n"⟩] (List.Perm.swap _ _ _)

/-- **C4 (code evaluation at the failing input).** With no past Showtime and
two future ones — `Early` at 10 s and `Late` at 20 s past `now = 0` — the
next-movie reply takes the smallest `datetime − now` (10 s, from `Early`)
but names `Late`: under the Go 1.21 toolchain the `nextShowtime` pointer
holds the address of the shared loop variable, so the title is that of the
last element of the map iteration order, not of the chosen Showtime. -/
theorem c4_next_movie_names_last_iterated :
    nextMovieReply 0
        [⟨"a", "Early", 10000000000, "n"⟩, ⟨"b", "Late", 20000000000, "n"⟩] =
      "In 10 seconds, Late is playing!" := by decide

/-- **C5 (code evaluation at the failing input).** With two past Showtimes —
`Old` started 90 s before `now` and `New` 10 s before — and the map iterated
as `[New, Old]`, the reply shows the elapsed time of the most recent past
Showtime (10 s, from `New`) but names `Old`, the last element of the
iteration order, for the same loop-variable aliasing reason as C4. -/
theorem c5_current_movie_names_last_iterated :
    nextMovieReply 100000000000
        [⟨"new", "New", 90000000000, "n"⟩, ⟨"old", "Old", 10000000000, "n"⟩] =
      "10 seconds into Old" := by decide

/-- **C6.** A double quote that closes a quoted region (inside-quotes state,
no pending escape) always flushes the current buffer as a token — even when
the buffer is empty — and clears it; in particular tokenizing the
two-character input `""` yields exactly one token, the empty string. -/
theorem c6_closing_quote_always_flushes :
    (∀ (args : List String) (current : String),
        parseStep ⟨args, current, true, false⟩ '"' =
          ⟨args ++ [current], "", false, false⟩) ∧
      parseArgs "\"\"" = [""] :=
  ⟨fun _ _ => rfl, by decide⟩

/-- **C7 (counterexample).** An escaped character outside the special set is
NOT emitted as just the character: the backslash is kept.  Tokenizing the
two-character input backslash-`x` yields the two-character token
backslash-`x`, not `x`. -/
theorem c7_escape_keeps_backslash :
    parseArgs "\\x" = ["\\x"] ∧ ("\\x" : String) ≠ "x" := by
  refine ⟨by decide, by decide⟩

/-- **C7 (amended).** With an escape pending, `t`, `n`, `r` expand to the
literal tab, newline and carriage return, a backslash, double quote, space or
tab is emitted literally, and every other character is emitted with the
backslash retained in front of it (so the escape is not dropped). -/
theorem c7_escape_expansions :
    (∀ (args : List String) (cur : String) (inQ : Bool),
        parseStep ⟨args, cur, inQ, true⟩ 't' = ⟨args, cur.push '\t', inQ, false⟩ ∧
        parseStep ⟨args, cur, inQ, true⟩ 'n' = ⟨args, cur.push '\n', inQ, false⟩ ∧
        parseStep ⟨args, cur, inQ, true⟩ 'r' = ⟨args, cur.push '\r', inQ, false⟩ ∧
        parseStep ⟨args, cur, inQ, true⟩ '\\' = ⟨args, cur.push '\\', inQ, false⟩ ∧
        parseStep ⟨args, cur, inQ, true⟩ '"' = ⟨args, cur.push '"', inQ, false⟩ ∧
        parseStep ⟨args, cur, inQ, true⟩ ' ' = ⟨args, cur.push ' ', inQ, false⟩ ∧
        parseStep ⟨args, cur, inQ, true⟩ '\t' = ⟨args, cur.push '\t', inQ, false⟩) ∧
      ∀ (c : Char), c ≠ '\\' → c ≠ '"' → c ≠ ' ' → c ≠ '\t' →
        c ≠ 't' → c ≠ 'n' → c ≠ 'r' →
        ∀ (args : List String) (cur : String) (inQ : Bool),
          parseStep ⟨args, cur, inQ, true⟩ c =
            ⟨args, (cur.push '\\').push c, inQ, false⟩ := by
  refine ⟨fun args cur inQ => ⟨rfl, rfl, rfl, rfl, rfl, rfl, rfl⟩, ?_⟩
  intro c h1 h2 h3 h4 h5 h6 h7 args cur inQ
  simp [parseStep, h1, h2, h3, h4, h5, h6, h7]

/-- Witness for C7 (amended): the escaped ordinary character `x` is emitted
with its backslash retained. -/
theorem c7_escape_expansions_witness :
    parseStep ⟨[], "", false, true⟩ 'x' =
      ⟨[], (String.push "" '\\').push 'x', false, false⟩ :=
  c7_escape_expansions.2 'x' (by decide) (by decide) (by decide) (by decide)
    (by decide) (by decide) (by decide) [] "" false

/-- **C8.** The duration formatters round the input to the nearest whole
second (within half a second, ties away from zero); a rounded duration of at
most 0 yields `Now` (until) or `Just started` (since); 90 seconds formats as
`In 1 minute, 30 seconds`; 3661 seconds formats as `In 1 hour, 1 minute`;
and whenever the hours component is positive the parts contain no seconds
clause. -/
theorem c8_duration_formatting :
    (∀ ns : Int, (roundSeconds ns * 1000000000 - ns).natAbs ≤ 500000000) ∧
      (∀ ns : Int, roundSeconds ns ≤ 0 →
        formatTimeUntil ns = "Now" ∧ formatTimeSince ns = "Just started") ∧
      formatTimeUntil (90 * 1000000000) = "In 1 minute, 30 seconds" ∧
      formatTimeUntil (3661 * 1000000000) = "In 1 hour, 1 minute" ∧
      ∀ t : Nat, 0 < t / 3600 →
        durationParts t = [hoursClause (t / 3600)] ++
          (if 0 < t % 3600 / 60 then [minutesClause (t % 3600 / 60)] else []) := by
  refine ⟨?_, ?_, by decide, by decide, ?_⟩
  · intro ns
    simp only [roundSeconds]
    by_cases h : ns < 0
    · rw [if_pos h]; omega
    · rw [if_neg h]; omega
  · intro ns h
    constructor <;> simp [formatTimeUntil, formatTimeSince, h]
  · intro t ht
    have h0 : t / 3600 ≠ 0 := Nat.pos_iff_ne_zero.mp ht
    simp [durationParts, ht, h0]

/-- Witness for C8: a negative duration formats as `Now`, and an
hour-spanning total has exactly the hours and minutes clauses. -/
theorem c8_duration_formatting_witness :
    formatTimeUntil (-1) = "Now" ∧ durationParts 3661 = ["1 hour", "1 minute"] := by
  refine ⟨(c8_duration_formatting.2.1 (-1) (by decide)).1, ?_⟩
  have h := c8_duration_formatting.2.2.2.2 3661 (by decide)
  rw [h]; decide

/-- **C9.** A create command whose discrete fields pass the range checks but
form a silently-rolled-over calendar date (the day exceeds the length of the
month, e.g. February 30, or day 31 of a 30-day month) is rejected with the
validation message, and the store is returned unchanged: the date is not
normalized into the next month. -/
theorem c9_rolled_over_date_rejected
    (store : List Showtime) (id title : String)
    (hours minutes seconds month day year : Nat) (nick : String)
    (nowYear nowMonth nowDay : Nat)
    (hid : id ≠ "") (htitle : title ≠ "")
    (hfresh : (store.any fun s => s.id == id) = false)
    (hy1 : 1900 ≤ year) (hy2 : year ≤ 2100)
    (hm1 : 1 ≤ month) (hm2 : month ≤ 12)
    (hd1 : 1 ≤ day) (hd2 : day ≤ 31)
    (hroll : daysInMonth year month < day) :
    createShowtimeFields store id title hours minutes seconds month day year
        nick nowYear nowMonth nowDay =
      (store, "Invalid date (check month/day combination and leap year).") := by
  have hy0 : year ≠ 0 := by omega
  have hm0 : month ≠ 0 := by omega
  have hd0 : day ≠ 0 := by omega
  have hnorm : normalizeDate year month day ≠ (year, month, day) := by
    unfold normalizeDate
    rw [if_neg (by omega)]
    by_cases hm12 : month = 12
    · exfalso
      rw [hm12] at hroll
      have h31 : daysInMonth year 12 = 31 := by simp [daysInMonth]
      omega
    · rw [if_neg hm12]
      intro hEq
      simp only [Prod.mk.injEq] at hEq
      omega
  simp [createShowtimeFields, hid, htitle, hfresh, hy0, hm0, hd0, hnorm]

/-- Witness for C9: February 30, 2030 is rejected without creating a record. -/
theorem c9_rolled_over_date_rejected_witness :
    createShowtimeFields [] "m1" "Dune" 20 0 0 2 30 2030 "alice" 2026 1 1 =
      ([], "Invalid date (check month/day combination and leap year).") :=
  c9_rolled_over_date_rejected [] "m1" "Dune" 20 0 0 2 30 2030 "alice" 2026 1 1
    (by decide) (by decide) (by decide) (by decide) (by decide) (by decide)
    (by decide) (by decide) (by decide) (by decide)

/-- **C10.** In the showtime dispatcher, whenever some token after the first
begins with `-delete`, the delete handler runs unless the second token is
exactly `-list`; in particular a command line whose second token is exactly
`-create` but which also carries a `-delete…` token performs a deletion and
never a creation. -/
theorem c10_delete_takes_precedence_over_create
    (args : List String) (hlen : 2 ≤ args.length)
    (hdel : ((args.drop 1).any fun arg => strHasPre arg "-delete") = true) :
    (args.getD 1 "" ≠ "-list" → dispatchShowtime args = .delete) ∧
      (args.getD 1 "" = "-create" →
        dispatchShowtime args = .delete ∧ dispatchShowtime args ≠ .create) := by
  have h2 : ¬ args.length < 2 := by omega
  have hmain : args.getD 1 "" ≠ "-list" → dispatchShowtime args = .delete := by
    intro hne
    simp only [dispatchShowtime]
    rw [if_neg h2, if_neg hne, if_pos hdel]
  refine ⟨hmain, fun hc => ?_⟩
  have hne : args.getD 1 "" ≠ "-list" := by rw [hc]; decide
  have hd := hmain hne
  exact ⟨hd, by rw [hd]; decide⟩

/-- Witness for C10: a line tokenized as `;showtime -create -delete="a"`
dispatches to delete, not create. -/
theorem c10_delete_takes_precedence_over_create_witness :
    dispatchShowtime [";showtime", "-create", "-delete=\"a\""] = .delete ∧
      dispatchShowtime [";showtime", "-create", "-delete=\"a\""] ≠ .create :=
  (c10_delete_takes_precedence_over_create [";showtime", "-create", "-delete=\"a\""]
    (by decide) (by decide)).2 (by decide)
